import Mathlib

/-!
Verification of the bor node control plane: the miner sync/mining state
machine, the `Ethereum` backend's `StartMining`/`Stop` lifecycle methods,
and the checkpoint-whitelist background service, as shallow embeddings of
`eth/backend.go` and (for the miner update loop, which the excerpt shows
only through `miner/miner_test.go`) a model derived from the specification
and the repository's own tests.
-/

/-! ## Miner sync/mining state machine -/

/-- Inputs consumed by the miner control loop: caller commands `start`/`stop`
and downloader bus events (`downloader.StartEvent`, `downloader.DoneEvent`,
`downloader.FailedEvent` in the source, named `syncStarted`, `syncCompleted`,
`syncFailed` here, matching the specification's vocabulary). -/
inductive MinerInput where
  | start
  | stop
  | syncStarted
  | syncCompleted
  | syncFailed
deriving DecidableEq, Repr

/-- State owned by the miner control loop: `mining` is the observable
`Mining()` value (`Running` iff true), `everSynced` the sticky flag set by
the first completed sync, `shouldStart` the recorded desired-mining intent,
and `canStart` is true iff no sync is currently in progress. -/
structure MinerState where
  mining : Bool
  everSynced : Bool
  shouldStart : Bool
  canStart : Bool
deriving DecidableEq, Repr

/-- Initial miner state: stopped, never synced, no intent, no sync in
progress. -/
def minerInit : MinerState :=
  { mining := false, everSynced := false, shouldStart := false, canStart := true }

/-- Modelled from the spec: the miner update loop (`miner/miner.go` is not
part of the excerpt; only `miner/miner_test.go` is). Transitions follow the
specification's transition policy for `Start`, `Stop`, `SyncStarted` and
`SyncCompleted`, and the repository's own tests (`TestMinerDownloaderFirstFails`,
which requires `Mining() == true` after a first `FailedEvent` when `Start()`
was called, agreeing with the specification's first-fails scenario) for
`SyncFailed`. One input is consumed per step; the loop serializes all
transitions. -/
def minerStep (s : MinerState) : MinerInput → MinerState
  | MinerInput.start =>
      if s.everSynced || s.canStart then
        { s with shouldStart := true, mining := true }
      else
        { s with shouldStart := true }
  | MinerInput.stop =>
      { s with shouldStart := false, mining := false }
  | MinerInput.syncStarted =>
      if s.everSynced then s
      else { s with mining := false, canStart := false }
  | MinerInput.syncCompleted =>
      { s with canStart := true, everSynced := true,
               mining := s.mining || s.shouldStart }
  | MinerInput.syncFailed =>
      if s.everSynced then s
      else { s with canStart := true, mining := s.mining || s.shouldStart }

/-- Run the miner control loop over a whole input trace, in delivery order. -/
def minerRun (s : MinerState) (tr : List MinerInput) : MinerState :=
  tr.foldl minerStep s

/-! ## Ethereum backend (`eth/backend.go`) -/

namespace Ethereum

/-- Consensus engine shapes distinguished by `StartMining` and the whitelist
service: `clique`, a `beacon` wrapper with an inner engine, `ethash`, `bor`
(with or without a configured `HeimdallClient`), or anything else. -/
inductive Engine where
  | clique
  | beacon (inner : Engine)
  | ethash
  | bor (hasHeimdallClient : Bool)
  | other
deriving DecidableEq, Repr

/-- Engines for which `StartMining` resolves a clique signer: a bare
`*clique.Clique`, or a `*beacon.Beacon` whose `InnerEngine()` is a
`*clique.Clique` (one level of unwrapping only). -/
def isCliqueSigner : Engine → Bool
  | Engine.clique => true
  | Engine.beacon inner =>
      match inner with
      | Engine.clique => true
      | _ => false
  | _ => false

/-- Whether the engine is a `*bor.Bor`. -/
def isBor : Engine → Bool
  | Engine.bor _ => true
  | _ => false

/-- Whether the engine is a `*bor.Bor` with a non-nil `HeimdallClient`. -/
def hasHeimdall : Engine → Bool
  | Engine.bor b => b
  | _ => false

/-- The `Ethereum` backend state visible to the embedded methods.
Addresses and hashes are modelled as naturals, with `0` as the zero
address. `mining` is the miner's `Mining()` value, `engineThreaded` is the
duck-typed `SetThreads` capability with `engineThreads` its thread count,
`engineAuthorized` the address last passed to the engine's `Authorize`,
`wallets` the addresses the account manager can `Find` a wallet for, and
`acceptTxs` the handler's `acceptTxs` flag. -/
structure EthState where
  mining : Bool
  etherbase : Nat
  authorized : Bool
  gasPrice : Int
  txPoolGasPrice : Int
  engine : Engine
  engineThreaded : Bool
  engineThreads : Int
  engineAuthorized : Option Nat
  wallets : List Nat
  acceptTxs : Bool
deriving DecidableEq, Repr

/-- Embedding of `(*Ethereum).IsMining`. -/
def IsMining (s : EthState) : Bool := s.mining

/-- Embedding of `(*Ethereum).Etherbase`: returns the stored etherbase when
it is not the zero address, otherwise the `etherbase must be explicitly
specified` error (modelled as `none`). -/
def Etherbase (s : EthState) : Option Nat :=
  if s.etherbase ≠ 0 then some s.etherbase else none

/-- External calls performed by `StartMining`, recorded in program order:
`SetThreads` on the engine, `SetGasPrice` on the transaction pool, the
`Etherbase()` resolution, the account manager wallet lookup, the engine
`Authorize`, and the asynchronous `go s.miner.Start()`. -/
inductive MiningCall where
  | setThreads (n : Int)
  | setGasPrice (price : Int)
  | resolveEtherbase
  | findWallet (addr : Nat)
  | authorize (addr : Nat)
  | minerStart
deriving DecidableEq, Repr

/-- Errors returned by `StartMining`: `etherbase missing: ...` and
`signer missing: ...`. -/
inductive StartMiningError where
  | etherbaseMissing
  | signerMissing
deriving DecidableEq, Repr

/-- The tail of `StartMining` once configuration succeeded: set the
handler's `acceptTxs` flag and issue `go s.miner.Start()`, returning nil. -/
def startWorker (s : EthState) (calls : List MiningCall) :
    EthState × List MiningCall × Option StartMiningError :=
  ({ s with acceptTxs := true }, calls ++ [MiningCall.minerStart], none)

/-- Embedding of `(*Ethereum).StartMining`: update the engine thread count
when the engine is `threaded` (mapping `0` to `-1`); if the miner is already
running, return nil; otherwise propagate the gas price to the pool, resolve
the etherbase (error if unset), and unless `authorized` is already set,
authorize a clique signer (bare or one level inside beacon) or a bor engine
with a wallet found for the etherbase (error if the wallet is missing);
finally enable `acceptTxs` and start the miner asynchronously. The second
component records the external calls performed, in order. -/
def StartMining (s : EthState) (threads : Int) :
    EthState × List MiningCall × Option StartMiningError :=
  let adjusted : Int := if threads = 0 then -1 else threads
  let s1 := if s.engineThreaded then { s with engineThreads := adjusted } else s
  let calls1 := if s.engineThreaded then [MiningCall.setThreads adjusted] else []
  if IsMining s1 then
    (s1, calls1, none)
  else
    let s2 := { s1 with txPoolGasPrice := s1.gasPrice }
    let calls2 := calls1 ++ [MiningCall.setGasPrice s1.gasPrice, MiningCall.resolveEtherbase]
    match Etherbase s2 with
    | none => (s2, calls2, some StartMiningError.etherbaseMissing)
    | some eb =>
      if s2.authorized then
        startWorker s2 calls2
      else if isCliqueSigner s2.engine then
        if s2.wallets.contains eb then
          startWorker { s2 with engineAuthorized := some eb }
            (calls2 ++ [MiningCall.findWallet eb, MiningCall.authorize eb])
        else
          (s2, calls2 ++ [MiningCall.findWallet eb], some StartMiningError.signerMissing)
      else if isBor s2.engine then
        if s2.wallets.contains eb then
          startWorker { s2 with engineAuthorized := some eb }
            (calls2 ++ [MiningCall.findWallet eb, MiningCall.authorize eb])
        else
          (s2, calls2 ++ [MiningCall.findWallet eb], some StartMiningError.signerMissing)
      else
        startWorker s2 calls2

/-! ## Checkpoint whitelist service -/

/-- Errors flowing through the whitelist cycle: the two sentinel errors of
`eth/backend.go` plus arbitrary other fetch/verification errors. -/
inductive WError where
  | notBorConsensus
  | borConsensusWithoutHeimdall
  | other (code : Nat)
deriving DecidableEq, Repr

/-- Embedding of `ErrNotBorConsensus`. -/
def ErrNotBorConsensus : WError := WError.notBorConsensus

/-- Embedding of `ErrBorConsensusWithoutHeimdall`. -/
def ErrBorConsensusWithoutHeimdall : WError := WError.borConsensusWithoutHeimdall

/-- Embedding of `whitelistTimeout = 30 * time.Second`, in seconds. -/
def whitelistTimeout : Nat := 30

/-- The fixed ticker period `time.NewTicker(100 * time.Second)`, in seconds. -/
def whitelistTickPeriod : Nat := 100

/-- Result of `fetchWhitelistCheckpoints` (external to the excerpt): two
parallel arrays of block numbers and hashes, and an optional error which may
accompany a non-empty partial result. -/
structure FetchResult where
  blockNums : List Nat
  blockHashes : List Nat
  err : Option WError
deriving DecidableEq, Repr

/-- Embedding of `(*Ethereum).handleWhitelistCheckpoint`: reject non-bor
engines and bor engines without a `HeimdallClient`; with an empty fetched
array return the fetch error unchanged; otherwise install every fetched
`(number, hash)` pair via `ProcessCheckpoint` in array order and return nil.
The first component is the sequence of `ProcessCheckpoint(blockNums[i],
blockHashes[i])` calls performed, in order. -/
def handleWhitelistCheckpoint (engine : Engine) (fetch : FetchResult) :
    List (Nat × Nat) × Option WError :=
  if !isBor engine then
    ([], some ErrNotBorConsensus)
  else if !hasHeimdall engine then
    ([], some ErrBorConsensusWithoutHeimdall)
  else if fetch.blockNums.length = 0 then
    ([], fetch.err)
  else
    (fetch.blockNums.zip fetch.blockHashes, none)

/-- Outcomes of the `select` inside the whitelist loop: a ticker tick, or
the `closeCh` shutdown broadcast becoming ready. -/
inductive LoopEvent where
  | tick
  | close
deriving DecidableEq, Repr

/-- The tick-driven tail of the whitelist loop: each `tick` runs one
non-first cycle under the `whitelistTimeout` bound; the first `close` exits
the loop, discarding every later event. Each list element is the
`(first, timeout)` pair of one `handleWhitelistCheckpoint` call. -/
def tickCycles : List LoopEvent → List (Bool × Nat)
  | [] => []
  | LoopEvent.tick :: rest => (false, whitelistTimeout) :: tickCycles rest
  | LoopEvent.close :: _ => []

/-- Observable trace of one run of the whitelist goroutine: the cycles it
executed (with their first-run flag and timeout), whether the ticker was
ever created (and its period), and whether the first-run warning was
logged. -/
structure ServiceRun where
  cycles : List (Bool × Nat)
  tickerCreated : Bool
  tickerPeriod : Option Nat
  loggedFirstWarn : Bool
deriving DecidableEq, Repr

/-- Embedding of `(*Ethereum).startCheckpointWhitelistService`: if `closeCh`
is already closed at entry, return with no side effects; otherwise run the
first cycle immediately under `whitelistTimeout`; if it failed with
`ErrBorConsensusWithoutHeimdall` or `ErrNotBorConsensus`, return before the
ticker is created; otherwise log a warning when the first cycle errored,
create the 100-second ticker and run one cycle per tick until the shutdown
signal is selected. `events` is the sequence of `select` outcomes observed
by the loop. -/
def startCheckpointWhitelistService (closedAtStart : Bool) (engine : Engine)
    (fetchFirst : FetchResult) (events : List LoopEvent) : ServiceRun :=
  if closedAtStart then
    { cycles := [], tickerCreated := false, tickerPeriod := none,
      loggedFirstWarn := false }
  else
    let firstErr := (handleWhitelistCheckpoint engine fetchFirst).2
    if firstErr = some ErrBorConsensusWithoutHeimdall ∨ firstErr = some ErrNotBorConsensus then
      { cycles := [(true, whitelistTimeout)], tickerCreated := false,
        tickerPeriod := none, loggedFirstWarn := false }
    else
      { cycles := (true, whitelistTimeout) :: tickCycles events,
        tickerCreated := true, tickerPeriod := some whitelistTickPeriod,
        loggedFirstWarn := firstErr.isSome }

/-- Modelled from the spec: the whitelist store's `ProcessCheckpoint`
(the `eth/downloader/whitelist` package is not part of the excerpt; only its
construction site `whitelist.NewService(10)` and the call sites in
`handleWhitelistCheckpoint` are). Per the whitelist store contract, the
store holds the most recently accepted checkpoint, must reject (or ignore) a
block number lower than the highest previously accepted, and installation is
idempotent for the same `(number, hash)` pair. -/
def ProcessCheckpoint : Option (Nat × Nat) → Nat → Nat → Option (Nat × Nat)
  | none, num, hash => some (num, hash)
  | some (n, h), num, hash => if num < n then some (n, h) else some (num, hash)

/-! ## Shutdown (`(*Ethereum).Stop`) -/

/-- The teardown statements executed by `(*Ethereum).Stop`, one constructor
per statement, in source order. -/
inductive StopStep where
  | closeEthDialCandidates
  | closeSnapDialCandidates
  | stopHandler
  | closeBloomIndexer
  | closeBloomHandlerChan
  | closeCloseCh
  | closeEngine
  | stopTxPool
  | closeMiner
  | stopBlockchain
  | closeEngineSecond
  | stopShutdownTracker
  | closeChainDb
  | stopEventMux
deriving DecidableEq, Repr

/-- The exact statement order of `(*Ethereum).Stop`: dial iterators, protocol
handler, bloom indexer and bloom handler channel, the `closeCh` broadcast,
engine close, tx pool stop, miner close, blockchain stop, a second engine
close, shutdown-tracker stop, database close, event mux stop. -/
def stopSequence : List StopStep :=
  [StopStep.closeEthDialCandidates, StopStep.closeSnapDialCandidates,
   StopStep.stopHandler, StopStep.closeBloomIndexer,
   StopStep.closeBloomHandlerChan, StopStep.closeCloseCh,
   StopStep.closeEngine, StopStep.stopTxPool, StopStep.closeMiner,
   StopStep.stopBlockchain, StopStep.closeEngineSecond,
   StopStep.stopShutdownTracker, StopStep.closeChainDb,
   StopStep.stopEventMux]

/-- Embedding of `(*Ethereum).Stop`: every statement runs unconditionally in
`stopSequence` order; the errors individual steps may produce (`stepErr`)
are discarded — none of the `Close()`/`Stop()` return values is inspected —
and the method ends with `return nil`. -/
def Stop (stepErr : StopStep → Option Nat) : List StopStep × Option Nat :=
  (stopSequence, none)

end Ethereum

/-! ## Miner state machine lemmas -/

/-- The sticky flag is monotone: once `everSynced` is true, no single input
resets it. -/
lemma minerStep_everSynced_mono (s : MinerState) (e : MinerInput)
    (h : s.everSynced = true) : (minerStep s e).everSynced = true := by
  cases e <;> simp [minerStep, h] <;> split <;> simp [h]

/-- The sticky flag is monotone along any trace. -/
lemma minerRun_everSynced_mono (tr : List MinerInput) :
    ∀ s : MinerState, s.everSynced = true → (minerRun s tr).everSynced = true := by
  induction tr with
  | nil => intro s h; exact h
  | cons e rest ih =>
      intro s h
      exact ih (minerStep s e) (minerStep_everSynced_mono s e h)

/-- After a trace containing a `syncCompleted`, `everSynced` is true. -/
lemma minerRun_everSynced_of_completed (tr : List MinerInput) :
    ∀ s : MinerState, MinerInput.syncCompleted ∈ tr →
      (minerRun s tr).everSynced = true := by
  induction tr with
  | nil => intro s h; cases h
  | cons e rest ih =>
      intro s h
      by_cases he : MinerInput.syncCompleted ∈ rest
      · exact ih (minerStep s e) he
      · have : e = MinerInput.syncCompleted := by
          rcases List.mem_cons.mp h with h' | h'
          · exact h'.symm
          · exact absurd h' he
        subst this
        exact minerRun_everSynced_mono rest (minerStep s MinerInput.syncCompleted)
          (by simp [minerStep])

/-- If no `syncCompleted` occurs in the trace, `everSynced` stays false. -/
lemma minerRun_everSynced_stays_false (tr : List MinerInput) :
    ∀ s : MinerState, s.everSynced = false →
      MinerInput.syncCompleted ∉ tr → (minerRun s tr).everSynced = false := by
  induction tr with
  | nil => intro s h _; exact h
  | cons e rest ih =>
      intro s h hmem
      have he : e ≠ MinerInput.syncCompleted := by
        intro h'; exact hmem (h' ▸ List.mem_cons_self e rest)
      have hstep : (minerStep s e).everSynced = false := by
        cases e <;> simp [minerStep, h] <;> first
          | (split <;> simp [h])
          | exact absurd rfl he
      exact ih (minerStep s e) hstep (fun hm => hmem (List.mem_cons_of_mem e hm))

/-- While `everSynced` and `canStart` are false and mining is off, inputs
other than `syncCompleted`/`syncFailed` keep all three that way: a pending
first sync gates mining against `start` commands. -/
lemma minerRun_gate (tr : List MinerInput) :
    ∀ s : MinerState, s.everSynced = false → s.canStart = false →
      s.mining = false → MinerInput.syncCompleted ∉ tr →
      MinerInput.syncFailed ∉ tr →
      (minerRun s tr).everSynced = false ∧ (minerRun s tr).canStart = false ∧
        (minerRun s tr).mining = false := by
  induction tr with
  | nil => intro s h1 h2 h3 _ _; exact ⟨h1, h2, h3⟩
  | cons e rest ih =>
      intro s h1 h2 h3 hc hf
      have hec : e ≠ MinerInput.syncCompleted := by
        intro h'; exact hc (h' ▸ List.mem_cons_self e rest)
      have hef : e ≠ MinerInput.syncFailed := by
        intro h'; exact hf (h' ▸ List.mem_cons_self e rest)
      have hstep : (minerStep s e).everSynced = false ∧
          (minerStep s e).canStart = false ∧ (minerStep s e).mining = false := by
        cases e
        · simp [minerStep, h1, h2, h3]
        · simp [minerStep, h1, h2, h3]
        · simp [minerStep, h1, h2, h3]
        · exact absurd rfl hec
        · exact absurd rfl hef
      exact ih (minerStep s e) hstep.1 hstep.2.1 hstep.2.2
        (fun hm => hc (List.mem_cons_of_mem e hm))
        (fun hm => hf (List.mem_cons_of_mem e hm))

/-- Single-step preservation of the intent invariant: whenever the miner is
running, a `start` intent is recorded. -/
lemma minerStep_intent_inv (s : MinerState) (e : MinerInput)
    (h : s.mining = true → s.shouldStart = true) :
    (minerStep s e).mining = true → (minerStep s e).shouldStart = true := by
  cases e
  · simp [minerStep]; split <;> simp
  · simp [minerStep]
  · cases hev : s.everSynced
    · simp [minerStep, hev]
    · simp [minerStep, hev]; exact h
  · intro hm
    simp [minerStep] at hm ⊢
    rcases hm with hm | hm
    · exact h hm
    · exact hm
  · cases hev : s.everSynced
    · simp [minerStep, hev]
      intro hm
      rcases hm with hm | hm
      · exact h hm
      · exact hm
    · simp [minerStep, hev]; exact h

/-- Trace-level intent invariant: a reachable running state has
`shouldStart = true`. -/
lemma minerRun_intent_inv (tr : List MinerInput) :
    ∀ s : MinerState, (s.mining = true → s.shouldStart = true) →
      ((minerRun s tr).mining = true → (minerRun s tr).shouldStart = true) := by
  induction tr with
  | nil => intro s h; exact h
  | cons e rest ih =>
      intro s h
      exact ih (minerStep s e) (minerStep_intent_inv s e h)

/-! ## Claims about the miner state machine -/

/-- C1: Sticky-sync invariant — for every sequence of miner commands and
sync events in which a `SyncCompleted` has been observed at least once,
every subsequent `SyncStarted` or `SyncFailed` event leaves the value of
`Mining()` unchanged. -/
theorem sticky_sync_invariant (tr : List MinerInput)
    (h : MinerInput.syncCompleted ∈ tr) :
    (minerStep (minerRun minerInit tr) MinerInput.syncStarted).mining
        = (minerRun minerInit tr).mining ∧
    (minerStep (minerRun minerInit tr) MinerInput.syncFailed).mining
        = (minerRun minerInit tr).mining := by
  have hev : (minerRun minerInit tr).everSynced = true :=
    minerRun_everSynced_of_completed tr minerInit h
  constructor
  · simp [minerStep, hev]
  · simp [minerStep, hev]

/-- Witness for C1 on the concrete trace of `TestMiner`: start, first sync,
completed sync; afterwards both `SyncStarted` and `SyncFailed` leave mining
untouched. -/
theorem sticky_sync_invariant_witness :
    MinerInput.syncCompleted ∈
      [MinerInput.start, MinerInput.syncStarted, MinerInput.syncCompleted] ∧
    ((minerStep (minerRun minerInit [MinerInput.start, MinerInput.syncStarted,
        MinerInput.syncCompleted]) MinerInput.syncStarted).mining
      = (minerRun minerInit [MinerInput.start, MinerInput.syncStarted,
          MinerInput.syncCompleted]).mining ∧
     (minerStep (minerRun minerInit [MinerInput.start, MinerInput.syncStarted,
        MinerInput.syncCompleted]) MinerInput.syncFailed).mining
      = (minerRun minerInit [MinerInput.start, MinerInput.syncStarted,
          MinerInput.syncCompleted]).mining) :=
  ⟨by decide,
   sticky_sync_invariant
     [MinerInput.start, MinerInput.syncStarted, MinerInput.syncCompleted]
     (by decide)⟩

/-- C2: First-sync gating — in every execution with no `SyncCompleted` ever
observed, a `SyncStarted` event forces `Mining() == false` even if `Start()`
was called before, and a `Start()` issued while that first sync is still in
progress (no `SyncCompleted`/`SyncFailed` delivered since) records the
intent but leaves `Mining() == false`. -/
theorem first_sync_gating (tr tr2 : List MinerInput)
    (h1 : MinerInput.syncCompleted ∉ tr)
    (h2 : MinerInput.syncCompleted ∉ tr2)
    (h3 : MinerInput.syncFailed ∉ tr2) :
    (minerStep (minerRun minerInit tr) MinerInput.syncStarted).mining = false ∧
    (minerStep (minerRun (minerStep (minerRun minerInit tr)
        MinerInput.syncStarted) tr2) MinerInput.start).mining = false ∧
    (minerStep (minerRun (minerStep (minerRun minerInit tr)
        MinerInput.syncStarted) tr2) MinerInput.start).shouldStart = true := by
  have hev : (minerRun minerInit tr).everSynced = false :=
    minerRun_everSynced_stays_false tr minerInit rfl h1
  have e1 : (minerStep (minerRun minerInit tr) MinerInput.syncStarted).everSynced = false := by
    simp [minerStep, hev]
  have e2 : (minerStep (minerRun minerInit tr) MinerInput.syncStarted).canStart = false := by
    simp [minerStep, hev]
  have e3 : (minerStep (minerRun minerInit tr) MinerInput.syncStarted).mining = false := by
    simp [minerStep, hev]
  obtain ⟨g1, g2, g3⟩ := minerRun_gate tr2 _ e1 e2 e3 h2 h3
  set s3 := minerRun (minerStep (minerRun minerInit tr) MinerInput.syncStarted) tr2
    with hs3
  refine ⟨e3, ?_, ?_⟩
  · simp [minerStep, g1, g2, g3]
  · simp [minerStep, g1, g2]

/-- Witness for C2 on the trace of `TestStartWhileDownload`: `Start()`, then
the first `SyncStarted`, then another `Start()` while that sync is in
progress: mining stays off though the intent is recorded. -/
theorem first_sync_gating_witness :
    MinerInput.syncCompleted ∉ [MinerInput.start] ∧
    MinerInput.syncCompleted ∉ ([] : List MinerInput) ∧
    MinerInput.syncFailed ∉ ([] : List MinerInput) ∧
    ((minerStep (minerRun minerInit [MinerInput.start])
        MinerInput.syncStarted).mining = false ∧
     (minerStep (minerRun (minerStep (minerRun minerInit [MinerInput.start])
        MinerInput.syncStarted) []) MinerInput.start).mining = false ∧
     (minerStep (minerRun (minerStep (minerRun minerInit [MinerInput.start])
        MinerInput.syncStarted) []) MinerInput.start).shouldStart = true) :=
  ⟨by decide, by decide, by decide,
   first_sync_gating [MinerInput.start] [] (by decide) (by decide) (by decide)⟩

/-- C3 counterexample: on the trace of `TestMinerDownloaderFirstFails` —
`Start()`, then the first `SyncStarted`, then `SyncFailed` with
`everSynced == false` — the controller resumes mining (`Mining() == true`),
contradicting the claim that it moves to `Stopped` regardless of whether
`Start()` had been called. -/
theorem syncFailed_stop_claim_counterexample :
    (minerRun minerInit
      [MinerInput.start, MinerInput.syncStarted, MinerInput.syncFailed]).mining
      = true := by
  decide

/-- C3 (amended): on a `SyncFailed` delivered while `everSynced == false`,
the sync-in-progress gate is lifted (`canStart` becomes true, so the next
`SyncStarted` is again treated as a first sync) and `Mining()` equals the
recorded `Start()` intent: false when `Start()` was never called or was
cancelled, true when a start intent is pending. -/
theorem syncFailed_resumes_pending_intent (tr : List MinerInput)
    (h : (minerRun minerInit tr).everSynced = false) :
    (minerStep (minerRun minerInit tr) MinerInput.syncFailed).mining
        = (minerRun minerInit tr).shouldStart ∧
    (minerStep (minerRun minerInit tr) MinerInput.syncFailed).canStart = true := by
  have hinv := minerRun_intent_inv tr minerInit (by simp [minerInit])
  constructor
  · simp [minerStep, h]
    cases hm : (minerRun minerInit tr).mining
    · simp
    · simp [hinv hm]
  · simp [minerStep, h]

/-- Witness for the amended C3 at the trace `Start(); SyncStarted`: the
subsequent `SyncFailed` resumes mining because the start intent is
pending. -/
theorem syncFailed_resumes_pending_intent_witness :
    (minerRun minerInit [MinerInput.start, MinerInput.syncStarted]).everSynced
        = false ∧
    ((minerStep (minerRun minerInit [MinerInput.start, MinerInput.syncStarted])
        MinerInput.syncFailed).mining
      = (minerRun minerInit
          [MinerInput.start, MinerInput.syncStarted]).shouldStart ∧
     (minerStep (minerRun minerInit [MinerInput.start, MinerInput.syncStarted])
        MinerInput.syncFailed).canStart = true) :=
  ⟨by decide,
   syncFailed_resumes_pending_intent [MinerInput.start, MinerInput.syncStarted]
     (by decide)⟩

/-! ## Claims about `StartMining` -/

namespace Ethereum

/-- A bor engine is never resolved as a clique signer. -/
lemma isCliqueSigner_eq_false_of_isBor (e : Engine) (h : isBor e = true) :
    isCliqueSigner e = false := by
  cases e <;> simp_all [isBor, isCliqueSigner]

/-- C4: StartMining failure atomicity — called while `Mining()` is false,
with no etherbase configured, or not pre-authorized with a signer-capable
engine (clique, clique one level inside beacon, or bor) and no wallet for
the etherbase: the call returns a non-nil error synchronously, the
block-production worker is never started, `Mining()` stays false and the
`acceptTxs` gate is untouched; no retry happens (the method performs a
single pass and returns). -/
theorem startMining_config_error (s : EthState) (threads : Int)
    (hmine : s.mining = false)
    (hfail : s.etherbase = 0 ∨
      (s.authorized = false ∧
        (isCliqueSigner s.engine = true ∨ isBor s.engine = true) ∧
        s.wallets.contains s.etherbase = false)) :
    (StartMining s threads).2.2.isSome = true ∧
    MiningCall.minerStart ∉ (StartMining s threads).2.1 ∧
    (StartMining s threads).1.mining = false ∧
    (StartMining s threads).1.acceptTxs = s.acceptTxs := by
  by_cases h0 : s.etherbase = 0
  · cases hT : s.engineThreaded <;>
      simp [StartMining, IsMining, Etherbase, hT, hmine, h0]
  · rcases hfail with h0' | ⟨hauth, hsig, hw⟩
    · exact absurd h0' h0
    · have hw' : s.etherbase ∉ s.wallets := by simpa using hw
      rcases hsig with hc | hb
      · cases hT : s.engineThreaded <;>
          simp [StartMining, IsMining, Etherbase, hT, hmine, h0, hauth, hc, hw']
      · have hnc : isCliqueSigner s.engine = false :=
          isCliqueSigner_eq_false_of_isBor s.engine hb
        cases hT : s.engineThreaded <;>
          simp [StartMining, IsMining, Etherbase, hT, hmine, h0, hauth, hnc,
            hb, hw']

/-- A backend state with no etherbase configured, used to witness C4. -/
def sampleNoEtherbase : EthState :=
  { mining := false, etherbase := 0, authorized := false, gasPrice := 1,
    txPoolGasPrice := 1, engine := Engine.clique, engineThreaded := false,
    engineThreads := 0, engineAuthorized := none, wallets := [],
    acceptTxs := false }

/-- Witness for C4: starting the sample backend with no etherbase errors out
without starting the worker. -/
theorem startMining_config_error_witness :
    sampleNoEtherbase.mining = false ∧
    ((StartMining sampleNoEtherbase 2).2.2.isSome = true ∧
     MiningCall.minerStart ∉ (StartMining sampleNoEtherbase 2).2.1 ∧
     (StartMining sampleNoEtherbase 2).1.mining = false ∧
     (StartMining sampleNoEtherbase 2).1.acceptTxs
        = sampleNoEtherbase.acceptTxs) :=
  ⟨rfl, startMining_config_error sampleNoEtherbase 2 rfl (Or.inl rfl)⟩

/-- C10: StartMining while already mining is a frame-preserving no-op — it
returns nil without resolving the etherbase, looking up a wallet, calling
`Authorize`, or touching `authorized`, the stored etherbase, the pool gas
price or `acceptTxs`; its only effect is the engine thread-count update
(`0` mapped to `-1`) when the engine supports `SetThreads`. -/
theorem startMining_already_mining (s : EthState) (threads : Int)
    (h : s.mining = true) :
    StartMining s threads =
      (if s.engineThreaded then
        ({ s with engineThreads := if threads = 0 then -1 else threads },
         [MiningCall.setThreads (if threads = 0 then -1 else threads)], none)
      else (s, [], none)) := by
  cases hT : s.engineThreaded <;> simp [StartMining, IsMining, hT, h]

/-- A backend state that is already mining on a threaded engine, used to
witness C10. -/
def sampleAlreadyMining : EthState :=
  { mining := true, etherbase := 0, authorized := false, gasPrice := 1,
    txPoolGasPrice := 1, engine := Engine.ethash, engineThreaded := true,
    engineThreads := 4, engineAuthorized := none, wallets := [],
    acceptTxs := false }

/-- Witness for C10: starting the already-mining sample backend with `0`
threads only rewrites the engine thread count to `-1`. -/
theorem startMining_already_mining_witness :
    sampleAlreadyMining.mining = true ∧
    StartMining sampleAlreadyMining 0 =
      (if sampleAlreadyMining.engineThreaded then
        ({ sampleAlreadyMining with
            engineThreads := if (0 : Int) = 0 then -1 else 0 },
         [MiningCall.setThreads (if (0 : Int) = 0 then -1 else 0)], none)
      else (sampleAlreadyMining, [], none)) :=
  ⟨rfl, startMining_already_mining sampleAlreadyMining 0 rfl⟩

end Ethereum

/-! ## Claims about the checkpoint whitelist and shutdown -/

namespace Ethereum

/-- C5 counterexample: with a bor engine (Heimdall configured), one verified
record `(5, 7)` and a non-nil fetch error, `handleWhitelistCheckpoint`
installs the record but returns nil — the accompanying error is dropped,
not surfaced to the caller as the claim states. -/
theorem partial_result_error_dropped_counterexample :
    handleWhitelistCheckpoint (Engine.bor true)
      { blockNums := [5], blockHashes := [7], err := some (WError.other 3) }
      = ([(5, 7)], none) := by
  decide

/-- C5 (amended): with a bor engine with Heimdall, a fetch producing `n > 0`
verified records installs all `n` records via `ProcessCheckpoint` in array
(ascending) order, discarding none, and returns nil — the accompanying
error, if any, is dropped rather than surfaced; with `n == 0` the fetch
error (possibly nil) is returned unchanged and nothing is installed. -/
theorem partial_failure_installation (engine : Engine) (fetch : FetchResult)
    (hb : isBor engine = true) (hh : hasHeimdall engine = true)
    (hlen : fetch.blockNums.length = fetch.blockHashes.length) :
    (fetch.blockNums ≠ [] →
      handleWhitelistCheckpoint engine fetch
        = (fetch.blockNums.zip fetch.blockHashes, none) ∧
      (handleWhitelistCheckpoint engine fetch).1.length
        = fetch.blockNums.length) ∧
    (fetch.blockNums = [] →
      handleWhitelistCheckpoint engine fetch = ([], fetch.err)) := by
  constructor
  · intro hne
    have hlen0 : ¬ fetch.blockNums.length = 0 := by simpa using hne
    have h1 : handleWhitelistCheckpoint engine fetch
        = (fetch.blockNums.zip fetch.blockHashes, none) := by
      simp [handleWhitelistCheckpoint, hb, hh, hlen0]
    refine ⟨h1, ?_⟩
    rw [h1]
    simp [List.length_zip, hlen]
  · intro he
    simp [handleWhitelistCheckpoint, hb, hh, he]

/-- Witness for the amended C5: two verified records plus a trailing fetch
error are both installed, and an empty result hands the error back. -/
theorem partial_failure_installation_witness :
    isBor (Engine.bor true) = true ∧
    hasHeimdall (Engine.bor true) = true ∧
    (([5, 9] : List Nat).length = ([7, 8] : List Nat).length) ∧
    ((({ blockNums := [5, 9], blockHashes := [7, 8],
          err := some (WError.other 3) } : FetchResult).blockNums ≠ [] →
      handleWhitelistCheckpoint (Engine.bor true)
          { blockNums := [5, 9], blockHashes := [7, 8],
            err := some (WError.other 3) }
        = (([5, 9] : List Nat).zip [7, 8], none) ∧
      (handleWhitelistCheckpoint (Engine.bor true)
          { blockNums := [5, 9], blockHashes := [7, 8],
            err := some (WError.other 3) }).1.length
        = ([5, 9] : List Nat).length) ∧
     (({ blockNums := [5, 9], blockHashes := [7, 8],
          err := some (WError.other 3) } : FetchResult).blockNums = [] →
      handleWhitelistCheckpoint (Engine.bor true)
          { blockNums := [5, 9], blockHashes := [7, 8],
            err := some (WError.other 3) }
        = ([], some (WError.other 3)))) :=
  ⟨rfl, rfl, rfl,
   partial_failure_installation (Engine.bor true)
     { blockNums := [5, 9], blockHashes := [7, 8],
       err := some (WError.other 3) } rfl rfl rfl⟩

/-- C6: Permanent capability errors — when the engine is not bor, or is bor
without a Heimdall client, the first whitelist cycle fails with the matching
sentinel error and the goroutine returns before the ticker is created: no
further cycle runs regardless of how many ticks would follow, no warning is
logged, and the failure stays inside the service. -/
theorem whitelist_permanent_capability_errors (engine : Engine)
    (fetch : FetchResult) (events : List LoopEvent)
    (h : isBor engine = false ∨ hasHeimdall engine = false) :
    startCheckpointWhitelistService false engine fetch events
      = { cycles := [(true, whitelistTimeout)], tickerCreated := false,
          tickerPeriod := none, loggedFirstWarn := false } := by
  rcases h with h | h
  · simp [startCheckpointWhitelistService, handleWhitelistCheckpoint, h,
      ErrNotBorConsensus, ErrBorConsensusWithoutHeimdall]
  · cases hb : isBor engine <;>
      simp [startCheckpointWhitelistService, handleWhitelistCheckpoint, hb, h,
        ErrNotBorConsensus, ErrBorConsensusWithoutHeimdall]

/-- Witness for C6: with an ethash engine, the service runs exactly the
first cycle and never creates the ticker, even with pending ticks. -/
theorem whitelist_permanent_capability_errors_witness :
    (isBor Engine.ethash = false ∨ hasHeimdall Engine.ethash = false) ∧
    startCheckpointWhitelistService false Engine.ethash
        { blockNums := [], blockHashes := [], err := none }
        [LoopEvent.tick, LoopEvent.tick]
      = { cycles := [(true, whitelistTimeout)], tickerCreated := false,
          tickerPeriod := none, loggedFirstWarn := false } :=
  ⟨Or.inl rfl,
   whitelist_permanent_capability_errors Engine.ethash
     { blockNums := [], blockHashes := [], err := none }
     [LoopEvent.tick, LoopEvent.tick] (Or.inl rfl)⟩

/-- The tick loop ignores everything after the first shutdown event. -/
lemma tickCycles_stops_at_close (evs1 evs2 : List LoopEvent) :
    tickCycles (evs1 ++ LoopEvent.close :: evs2)
      = tickCycles (evs1 ++ [LoopEvent.close]) := by
  induction evs1 with
  | nil => rfl
  | cons e rest ih => cases e <;> simp [tickCycles, ih]

/-- Without a shutdown event, every tick runs exactly one bounded cycle. -/
lemma tickCycles_all_ticks (evs : List LoopEvent)
    (h : LoopEvent.close ∉ evs) :
    tickCycles evs = evs.map (fun _ => (false, whitelistTimeout)) := by
  induction evs with
  | nil => rfl
  | cons e rest ih =>
      cases e
      · simp [tickCycles, ih (fun hm => h (List.mem_cons_of_mem _ hm))]
      · exact absurd (List.mem_cons_self _ _) h

/-- C9: Whitelist loop scheduling — if the shutdown signal already fired the
service performs no side effects; otherwise (and when the first cycle does
not fail with a permanent capability error) one first cycle runs immediately
under the 30-second timeout, the ticker is created with a 100-second period,
each tick runs exactly one further 30-second-bounded cycle, and the first
shutdown event in the select sequence ends the loop with no later cycle. -/
theorem whitelist_loop_scheduling (engine : Engine) (fetch : FetchResult)
    (events evs1 evs2 evs3 : List LoopEvent)
    (hperm : ¬((handleWhitelistCheckpoint engine fetch).2
          = some ErrBorConsensusWithoutHeimdall ∨
        (handleWhitelistCheckpoint engine fetch).2 = some ErrNotBorConsensus))
    (hnc : LoopEvent.close ∉ evs3) :
    startCheckpointWhitelistService true engine fetch events
      = { cycles := [], tickerCreated := false, tickerPeriod := none,
          loggedFirstWarn := false } ∧
    (startCheckpointWhitelistService false engine fetch events).cycles
      = (true, whitelistTimeout) :: tickCycles events ∧
    (startCheckpointWhitelistService false engine fetch events).tickerPeriod
      = some whitelistTickPeriod ∧
    tickCycles (evs1 ++ LoopEvent.close :: evs2)
      = tickCycles (evs1 ++ [LoopEvent.close]) ∧
    tickCycles evs3 = evs3.map (fun _ => (false, whitelistTimeout)) ∧
    whitelistTimeout = 30 ∧ whitelistTickPeriod = 100 := by
  refine ⟨rfl, ?_, ?_, tickCycles_stops_at_close evs1 evs2,
    tickCycles_all_ticks evs3 hnc, rfl, rfl⟩
  · simp [startCheckpointWhitelistService, hperm]
  · simp [startCheckpointWhitelistService, hperm]

/-- Witness for C9 at a bor engine with an empty successful first fetch and
the select sequence tick, close, tick. -/
theorem whitelist_loop_scheduling_witness :
    ¬((handleWhitelistCheckpoint (Engine.bor true)
          { blockNums := [], blockHashes := [], err := none }).2
        = some ErrBorConsensusWithoutHeimdall ∨
      (handleWhitelistCheckpoint (Engine.bor true)
          { blockNums := [], blockHashes := [], err := none }).2
        = some ErrNotBorConsensus) ∧
    (startCheckpointWhitelistService true (Engine.bor true)
        { blockNums := [], blockHashes := [], err := none }
        [LoopEvent.tick, LoopEvent.close, LoopEvent.tick]
      = { cycles := [], tickerCreated := false, tickerPeriod := none,
          loggedFirstWarn := false } ∧
     (startCheckpointWhitelistService false (Engine.bor true)
        { blockNums := [], blockHashes := [], err := none }
        [LoopEvent.tick, LoopEvent.close, LoopEvent.tick]).cycles
      = (true, whitelistTimeout)
          :: tickCycles [LoopEvent.tick, LoopEvent.close, LoopEvent.tick] ∧
     (startCheckpointWhitelistService false (Engine.bor true)
        { blockNums := [], blockHashes := [], err := none }
        [LoopEvent.tick, LoopEvent.close, LoopEvent.tick]).tickerPeriod
      = some whitelistTickPeriod ∧
     tickCycles ([LoopEvent.tick] ++ LoopEvent.close :: [LoopEvent.tick])
      = tickCycles ([LoopEvent.tick] ++ [LoopEvent.close]) ∧
     tickCycles [LoopEvent.tick]
      = [LoopEvent.tick].map (fun _ => (false, whitelistTimeout)) ∧
     whitelistTimeout = 30 ∧ whitelistTickPeriod = 100) :=
  ⟨by decide,
   whitelist_loop_scheduling (Engine.bor true)
     { blockNums := [], blockHashes := [], err := none }
     [LoopEvent.tick, LoopEvent.close, LoopEvent.tick]
     [LoopEvent.tick] [LoopEvent.tick] [LoopEvent.tick]
     (by decide) (by decide)⟩

/-- C7: Monotonic checkpoint installation — installing `(100, H1)` then
`(50, H2)` leaves the store at `(100, H1)`; in general a block number lower
than the highest previously accepted is ignored, and re-installing the same
`(number, hash)` pair is idempotent. -/
theorem monotonic_checkpoint_installation (st : Option (Nat × Nat))
    (hsh1 hsh2 oldHash newHash n m : Nat) (hlt : m < n) :
    ProcessCheckpoint (ProcessCheckpoint none 100 hsh1) 50 hsh2
      = some (100, hsh1) ∧
    ProcessCheckpoint (some (n, oldHash)) m newHash = some (n, oldHash) ∧
    ProcessCheckpoint (ProcessCheckpoint st n oldHash) n oldHash
      = ProcessCheckpoint st n oldHash := by
  refine ⟨by simp [ProcessCheckpoint], by simp [ProcessCheckpoint, hlt], ?_⟩
  rcases st with _ | ⟨a, b⟩
  · simp [ProcessCheckpoint]
  · by_cases hc : n < a
    · simp [ProcessCheckpoint, hc]
    · simp [ProcessCheckpoint, hc]

/-- Witness for C7 at the store `(3, 4)` with attempts `(7, 9)` then a lower
`(5, 11)`. -/
theorem monotonic_checkpoint_installation_witness :
    (5 < 7) ∧
    (ProcessCheckpoint (ProcessCheckpoint none 100 1) 50 2 = some (100, 1) ∧
     ProcessCheckpoint (some (7, 9)) 5 11 = some (7, 9) ∧
     ProcessCheckpoint (ProcessCheckpoint (some (3, 4)) 7 9) 7 9
      = ProcessCheckpoint (some (3, 4)) 7 9) :=
  ⟨by decide, monotonic_checkpoint_installation (some (3, 4)) 1 2 9 11 7 5
    (by decide)⟩

/-- A step-error assignment where closing the consensus engine fails,
used to refute the error propagation claimed of `Stop`. -/
def engineCloseFails : StopStep → Option Nat :=
  fun st => if st = StopStep.closeEngine then some 7 else none

/-- C8 counterexample: even when the consensus-engine close step errors,
`Stop` returns nil — the first error encountered is not the one returned,
because no step error is ever collected. -/
theorem stop_first_error_counterexample :
    engineCloseFails StopStep.closeEngine = some 7 ∧
    (Stop engineCloseFails).2 = none :=
  ⟨by decide, rfl⟩

/-- C8 (amended): `Stop` executes every teardown statement unconditionally
in source order — dial/discovery iterators, protocol handlers, auxiliary
indexers, the shutdown broadcast, consensus engine close, transaction pool
stop, miner close, chain store stop (followed by a second engine close),
clean-shutdown marker clear, then the database, with the event mux stopped
after it — every step runs whatever earlier steps returned, but the step
errors are all discarded and `Stop` always returns nil rather than the
first error encountered. -/
theorem stop_teardown_order (stepErr : StopStep → Option Nat) :
    Stop stepErr = (stopSequence, none) ∧
    (∀ step : StopStep, step ∈ (Stop stepErr).1) ∧
    ((Stop stepErr).1.indexOf StopStep.closeEthDialCandidates
        < (Stop stepErr).1.indexOf StopStep.stopHandler ∧
     (Stop stepErr).1.indexOf StopStep.stopHandler
        < (Stop stepErr).1.indexOf StopStep.closeBloomIndexer ∧
     (Stop stepErr).1.indexOf StopStep.closeBloomIndexer
        < (Stop stepErr).1.indexOf StopStep.closeCloseCh ∧
     (Stop stepErr).1.indexOf StopStep.closeCloseCh
        < (Stop stepErr).1.indexOf StopStep.closeEngine ∧
     (Stop stepErr).1.indexOf StopStep.closeEngine
        < (Stop stepErr).1.indexOf StopStep.stopTxPool ∧
     (Stop stepErr).1.indexOf StopStep.stopTxPool
        < (Stop stepErr).1.indexOf StopStep.closeMiner ∧
     (Stop stepErr).1.indexOf StopStep.closeMiner
        < (Stop stepErr).1.indexOf StopStep.stopBlockchain ∧
     (Stop stepErr).1.indexOf StopStep.stopBlockchain
        < (Stop stepErr).1.indexOf StopStep.stopShutdownTracker ∧
     (Stop stepErr).1.indexOf StopStep.stopShutdownTracker
        < (Stop stepErr).1.indexOf StopStep.closeChainDb) := by
  have h1 : (Stop stepErr).1 = stopSequence := rfl
  refine ⟨rfl, ?_, ?_⟩
  · intro step
    rw [h1]
    cases step <;> decide
  · rw [h1]
    decide

end Ethereum
